import Mathlib

/-!
Shallow embedding of `BufferedFileWriter` (BufferedFileWriter.h / BufferedFileWriter.cpp).

The class owns a byte buffer `buff[BufferSize]`, a write pointer `writePtr`
(`cursor = writePtr - buff`), a file pointer `file`, and a running total
`bytesWrittenTotal`.  The underlying file-system primitive `FS_FWrite` is
external: we model it by a trace of the underlying write calls issued (the
byte sequence handed to each call) together with an oracle `fs : Nat → Nat`
giving the `uint32_t` return code of the k-th `FS_FWrite` call (k = number of
prior calls).  The state transition of the writer never inspects that return
code, only forwards it, so the oracle models arbitrary success/failure
behaviour of the file system.

Bytes are modelled as `Nat` (the code copies `char`s without interpreting
them), a C string argument as the list of its bytes before the terminating
NUL (so `strlen` is its length and `write(string, strlen(string))` reads
exactly that list), and the `FS_FILE *` handle as `Option Nat` (`none` =
`NULL`).  `sizeof(buff)` (`writeEndPtr - buff`) is kept as a parameter `cap`
so that the spec's worked scenarios (capacity 4 and 8) and the code's
constant `BufferSize = 4096` are instances of the same definitions.
-/

namespace BufferedFileWriter

/-- `static const size_t BufferSize = 4096;` (BufferedFileWriter.h:50). -/
def BufferSize : Nat := 4096

/-- `static const size_t LineBuffSize = 2048;` (BufferedFileWriter.h:52). -/
def LineBuffSize : Nat := 2048

/-- `enum WriteResult { WriteNoFile = UINT32_MAX }` (BufferedFileWriter.h:45-47). -/
def WriteNoFile : Nat := 4294967295

/-- The writer's state: attached handle, buffered bytes (`cursor` is
`buf.length`), `bytesWrittenTotal`, and the trace of underlying
`FS_FWrite` calls issued so far (the data handed to each call). -/
structure BFWState where
  file : Option Nat
  buf : List Nat
  total : Nat
  trace : List (List Nat)
  deriving Repr, DecidableEq

/-- The constructor (BufferedFileWriter.cpp:17-23): `bytesWrittenTotal = 0`,
`file = NULL`, `clear()` (no underlying write has been issued). -/
def initState : BFWState := ⟨none, [], 0, []⟩

/-- `clear()` (BufferedFileWriter.cpp:63-66): `writePtr = buff`. -/
def clear (s : BFWState) : BFWState := { s with buf := [] }

/-- `setFile(_file)` (BufferedFileWriter.cpp:36-40): `file = _file; clear();`
(does not touch `bytesWrittenTotal`). -/
def setFile (f : Option Nat) (s : BFWState) : BFWState :=
  { s with file := f, buf := [] }

/-- `bufferCount()` (BufferedFileWriter.cpp:43-46): `writePtr - buff`. -/
def bufferCount (s : BFWState) : Nat := s.buf.length

/-- `resetBytesWrittenTotal()` (BufferedFileWriter.cpp:48-51). -/
def resetBytesWrittenTotal (s : BFWState) : BFWState := { s with total := 0 }

/-- `getBytesWrittenTotal()` (BufferedFileWriter.cpp:55-58). -/
def getBytesWrittenTotal (s : BFWState) : Nat := s.total

/-- `flush()` (BufferedFileWriter.cpp:71-83): `retval = 0`; if `file == NULL`
then `WriteNoFile`; else if `writePtr > buff` then
`retval = FS_FWrite(buff, writePtr - buff, 1, file)` and `writePtr = buff`.
The FS call is recorded in the trace and its return code taken from the
oracle `fs` at the index of the call. -/
def flush (fs : Nat → Nat) (s : BFWState) : Nat × BFWState :=
  match s.file with
  | none => (WriteNoFile, s)
  | some _ =>
    if 0 < s.buf.length then
      (fs s.trace.length, { s with buf := [], trace := s.trace ++ [s.buf] })
    else
      (0, s)

/-- The `while (nChars > 0)` loop of `write` (BufferedFileWriter.cpp:97-105):
per byte, `*writePtr++ = *source++; --nChars; ++bytesWrittenTotal;` then
`if (writePtr >= writeEndPtr) retval = flush();`. -/
def writeLoop (fs : Nat → Nat) (cap : Nat) :
    List Nat → Nat → BFWState → Nat × BFWState
  | [], retval, s => (retval, s)
  | b :: rest, retval, s =>
    let s1 : BFWState := { s with buf := s.buf ++ [b], total := s.total + 1 }
    if cap ≤ s1.buf.length then
      let p := flush fs s1
      writeLoop fs cap rest p.1 p.2
    else
      writeLoop fs cap rest retval s1

/-- `write(source, nChars)` (BufferedFileWriter.cpp:89-108): if `file == NULL`
then `WriteNoFile` (nothing buffered, nothing counted), else run the loop
with `retval = 0`. -/
def write (fs : Nat → Nat) (cap : Nat) (bs : List Nat) (s : BFWState) :
    Nat × BFWState :=
  match s.file with
  | none => (WriteNoFile, s)
  | some _ => writeLoop fs cap bs 0 s

/-- `writeStr(string)` (BufferedFileWriter.cpp:115-122): `retval = 0`; if
`string != NULL` then `retval = write(string, strlen(string))`.  The null
check precedes any use of the file handle. -/
def writeStr (fs : Nat → Nat) (cap : Nat) (str : Option (List Nat))
    (s : BFWState) : Nat × BFWState :=
  match str with
  | none => (0, s)
  | some content => write fs cap content s

/-- The contents of `lineBuff` after
`vsnprintf(lineBuff, LineBuffSize, fmt, vl)` (BufferedFileWriter.cpp:133):
`rendered` is the full formatted output of `fmt` with its arguments, `old`
the previous contents of the `LineBuffSize + 1`-byte array `lineBuff`.
`vsnprintf` stores at most `LineBuffSize - 1` content bytes plus a NUL
terminator; bytes past the stored portion keep their old values. -/
def lineBuffAfter (rendered old : List Nat) : List Nat :=
  let stored := rendered.take (LineBuffSize - 1) ++ [0]
  stored ++ old.drop stored.length

/-- `logPrintf(fmt, ...)` (BufferedFileWriter.cpp:129-136) with a non-NULL
`fmt`: `nChars = vsnprintf(lineBuff, LineBuffSize, fmt, vl)` — which returns
the length the full rendered output WOULD have — then
`write(lineBuff, nChars)`.  When `rendered.length ≥ LineBuffSize` this
forwards more bytes than were rendered (the NUL terminator and stale
`lineBuff` contents; for `nChars > LineBuffSize + 1` the C code even reads
past the end of `lineBuff`, which the `take` caps at the array bound).
Note the C function is declared `bool` but has NO return statement, so only
the state effect is modelled here.  (A NULL `fmt` is handed straight to
`vsnprintf` — undefined behaviour, not modelled.) -/
def logPrintf (fs : Nat → Nat) (cap : Nat) (rendered old : List Nat)
    (s : BFWState) : BFWState :=
  let nChars := rendered.length
  (write fs cap ((lineBuffAfter rendered old).take nChars) s).2

/-- A public operation of the class, for stating reachability invariants. -/
inductive Op where
  | setFile : Option Nat → Op
  | clear : Op
  | write : List Nat → Op
  | writeStr : Option (List Nat) → Op
  | flush : Op
  | reset : Op
  deriving Repr

/-- State effect of one public operation (return codes discarded). -/
def step (fs : Nat → Nat) (cap : Nat) (op : Op) (s : BFWState) : BFWState :=
  match op with
  | .setFile f => setFile f s
  | .clear => clear s
  | .write bs => (write fs cap bs s).2
  | .writeStr str => (writeStr fs cap str s).2
  | .flush => (flush fs s).2
  | .reset => resetBytesWrittenTotal s

/-- Run a sequence of public operations. -/
def runOps (fs : Nat → Nat) (cap : Nat) (ops : List Op) (s : BFWState) :
    BFWState :=
  ops.foldl (fun t op => step fs cap op t) s

/-- Byte length passed to a write call (`nChars`, resp. `strlen(string)`). -/
def callBytes : Op → Nat
  | .write bs => bs.length
  | .writeStr (some content) => content.length
  | _ => 0

/-- Whether an operation is one of the two buffered write entry points. -/
def isWriteCall : Op → Bool
  | .write _ => true
  | .writeStr _ => true
  | _ => false

/-- An FS oracle whose every write reports 0. -/
def fsZero : Nat → Nat := fun _ => 0

/-- An FS oracle whose every write reports the error sentinel. -/
def fsFail : Nat → Nat := fun _ => WriteNoFile

/-! ### Basic lemmas about `flush` and the write loop -/

lemma flush_file (fs : Nat → Nat) (s : BFWState) :
    (flush fs s).2.file = s.file := by
  rcases s with ⟨f, buf, total, trace⟩
  cases f
  · rfl
  · simp only [flush]
    split <;> rfl

lemma flush_total (fs : Nat → Nat) (s : BFWState) :
    (flush fs s).2.total = s.total := by
  rcases s with ⟨f, buf, total, trace⟩
  cases f
  · rfl
  · simp only [flush]
    split <;> rfl

lemma flush_snd_indep (fs fs' : Nat → Nat) (s : BFWState) :
    (flush fs s).2 = (flush fs' s).2 := by
  rcases s with ⟨f, buf, total, trace⟩
  cases f
  · rfl
  · simp only [flush]
    split <;> rfl

lemma flush_conserve (fs : Nat → Nat) (s : BFWState) :
    (flush fs s).2.trace.flatten ++ (flush fs s).2.buf =
      s.trace.flatten ++ s.buf := by
  rcases s with ⟨f, buf, total, trace⟩
  cases f <;> simp [flush]
  split <;> simp

lemma flush_emptybuf (fs : Nat → Nat) (s : BFWState) (h : s.buf = []) :
    (flush fs s).2 = s := by
  rcases s with ⟨g, buf, total, trace⟩
  cases h
  cases g
  · rfl
  · simp [flush]

lemma flush_attached_write (fs : Nat → Nat) (f : Nat) (s : BFWState)
    (hf : s.file = some f) (hb : 0 < s.buf.length) :
    (flush fs s).2 = { s with buf := [], trace := s.trace ++ [s.buf] } := by
  rcases s with ⟨g, buf, total, trace⟩
  cases hf
  simp only [flush] at hb ⊢
  rw [if_pos hb]

lemma flush_attached_buf (fs : Nat → Nat) (f : Nat) (s : BFWState)
    (hf : s.file = some f) : (flush fs s).2.buf = [] := by
  rcases s with ⟨g, buf, total, trace⟩
  cases hf
  simp only [flush]
  split
  · rfl
  · simp_all [List.length_eq_zero]

lemma writeLoop_file (fs : Nat → Nat) (cap : Nat) (bs : List Nat) :
    ∀ (r : Nat) (s : BFWState), (writeLoop fs cap bs r s).2.file = s.file := by
  induction bs with
  | nil => intro r s; rfl
  | cons b rest ih =>
    intro r s
    simp only [writeLoop]
    split
    · rw [ih, flush_file]
    · exact ih _ _

lemma writeLoop_total (fs : Nat → Nat) (cap : Nat) (bs : List Nat) :
    ∀ (r : Nat) (s : BFWState),
      (writeLoop fs cap bs r s).2.total = s.total + bs.length := by
  induction bs with
  | nil => intro r s; simp [writeLoop]
  | cons b rest ih =>
    intro r s
    simp only [writeLoop]
    split
    · rw [ih, flush_total]; simp; omega
    · rw [ih]; simp; omega

lemma writeLoop_conserve (fs : Nat → Nat) (cap : Nat) (bs : List Nat) :
    ∀ (r : Nat) (s : BFWState),
      (writeLoop fs cap bs r s).2.trace.flatten ++ (writeLoop fs cap bs r s).2.buf =
        s.trace.flatten ++ s.buf ++ bs := by
  induction bs with
  | nil => intro r s; simp [writeLoop]
  | cons b rest ih =>
    intro r s
    simp only [writeLoop]
    split
    · rw [ih, flush_conserve]; simp
    · rw [ih]; simp

lemma writeLoop_snd_indep (fs fs' : Nat → Nat) (cap : Nat) (bs : List Nat) :
    ∀ (r r' : Nat) (s : BFWState),
      (writeLoop fs cap bs r s).2 = (writeLoop fs' cap bs r' s).2 := by
  induction bs with
  | nil => intro r r' s; rfl
  | cons b rest ih =>
    intro r r' s
    simp only [writeLoop]
    split
    · rw [ih _ ((flush fs' _).1), flush_snd_indep fs fs']
    · exact ih _ _ _

lemma writeLoop_no_flush (fs : Nat → Nat) (cap : Nat) (bs : List Nat) :
    ∀ (r : Nat) (s : BFWState), s.buf.length + bs.length < cap →
      writeLoop fs cap bs r s =
        (r, { s with buf := s.buf ++ bs, total := s.total + bs.length }) := by
  induction bs with
  | nil => intro r s _; simp [writeLoop]
  | cons b rest ih =>
    intro r s h
    simp only [writeLoop]
    have hlt : ¬ cap ≤ (s.buf ++ [b]).length := by simp at h ⊢; omega
    rw [if_neg hlt, ih]
    · simp [List.append_assoc]
      omega
    · simp at h ⊢; omega

lemma writeLoop_fill (fs : Nat → Nat) (cap : Nat) (f : Nat) (bs : List Nat) :
    ∀ (r : Nat) (s : BFWState), s.file = some f → bs ≠ [] →
      s.buf.length + bs.length = cap →
      writeLoop fs cap bs r s =
        (fs s.trace.length,
         { s with buf := [], total := s.total + bs.length,
                  trace := s.trace ++ [s.buf ++ bs] }) := by
  induction bs with
  | nil => intro r s _ hne _; exact absurd rfl hne
  | cons b rest ih =>
    intro r s hf _ hlen
    simp only [writeLoop]
    by_cases hr : rest = []
    · subst hr
      simp at hlen
      have hge : cap ≤ (s.buf ++ [b]).length := by simp; omega
      rw [if_pos hge]
      have hbne : 0 < (s.buf ++ [b]).length := by simp
      simp only [writeLoop, flush, hf, if_pos hbne]
      simp [hf]
    · have hlt : ¬ cap ≤ (s.buf ++ [b]).length := by
        have : 0 < rest.length := List.length_pos.mpr hr
        simp at hlen ⊢; omega
      rw [if_neg hlt,
        ih _ { s with buf := s.buf ++ [b], total := s.total + 1 } hf hr
          (by simp at hlen ⊢; omega)]
      simp [List.append_assoc]
      omega

lemma writeLoop_append (fs : Nat → Nat) (cap : Nat) (xs : List Nat) :
    ∀ (ys : List Nat) (r : Nat) (s : BFWState),
      writeLoop fs cap (xs ++ ys) r s =
        writeLoop fs cap ys (writeLoop fs cap xs r s).1
          (writeLoop fs cap xs r s).2 := by
  induction xs with
  | nil => intro ys r s; rfl
  | cons b rest ih =>
    intro ys r s
    simp only [List.cons_append, writeLoop]
    split
    · exact ih _ _ _
    · exact ih _ _ _

lemma writeLoop_buf_lt (fs : Nat → Nat) (cap : Nat) (f : Nat) (bs : List Nat) :
    ∀ (r : Nat) (s : BFWState), s.file = some f → 0 < cap →
      s.buf.length < cap → (writeLoop fs cap bs r s).2.buf.length < cap := by
  induction bs with
  | nil => intro r s _ _ h; exact h
  | cons b rest ih =>
    intro r s hf hcap h
    simp only [writeLoop]
    split
    · refine ih _ _ ?_ hcap ?_
      · rw [flush_file]; exact hf
      · rw [flush_attached_buf fs f
          { s with buf := s.buf ++ [b], total := s.total + 1 } hf]
        exact hcap
    · refine ih _ _ hf hcap ?_
      simp_all

lemma write_nofile (fs : Nat → Nat) (cap : Nat) (bs : List Nat) (s : BFWState)
    (hf : s.file = none) : write fs cap bs s = (WriteNoFile, s) := by
  rcases s with ⟨g, buf, total, trace⟩
  cases hf
  rfl

lemma write_eq_loop (fs : Nat → Nat) (cap : Nat) (bs : List Nat) (s : BFWState)
    (f : Nat) (hf : s.file = some f) :
    write fs cap bs s = writeLoop fs cap bs 0 s := by
  rcases s with ⟨g, buf, total, trace⟩
  cases hf
  rfl

lemma write_file (fs : Nat → Nat) (cap : Nat) (bs : List Nat) (s : BFWState) :
    (write fs cap bs s).2.file = s.file := by
  rcases s with ⟨g, buf, total, trace⟩
  cases g
  · rfl
  · exact writeLoop_file fs cap bs 0 _

lemma runOps_nil (fs : Nat → Nat) (cap : Nat) (s : BFWState) :
    runOps fs cap [] s = s := rfl

lemma runOps_cons (fs : Nat → Nat) (cap : Nat) (op : Op) (ops : List Op)
    (s : BFWState) :
    runOps fs cap (op :: ops) s = runOps fs cap ops (step fs cap op s) := rfl

lemma step_writeCall (fs : Nat → Nat) (cap f : Nat) (op : Op) (s : BFWState)
    (hf : s.file = some f) (hw : isWriteCall op = true) :
    (step fs cap op s).total = s.total + callBytes op ∧
      (step fs cap op s).file = s.file := by
  match op with
  | Op.write bs =>
    simp only [step, write_eq_loop fs cap bs s f hf, callBytes]
    exact ⟨writeLoop_total fs cap bs 0 s, writeLoop_file fs cap bs 0 s⟩
  | Op.writeStr none =>
    simp [step, writeStr, callBytes]
  | Op.writeStr (some content) =>
    simp only [step, writeStr, write_eq_loop fs cap content s f hf, callBytes]
    exact ⟨writeLoop_total fs cap content 0 s, writeLoop_file fs cap content 0 s⟩
  | Op.setFile g => simp [isWriteCall] at hw
  | Op.clear => simp [isWriteCall] at hw
  | Op.flush => simp [isWriteCall] at hw
  | Op.reset => simp [isWriteCall] at hw

lemma runOps_writeCalls_total (fs : Nat → Nat) (cap f : Nat)
    (calls : List Op) :
    ∀ (s : BFWState), s.file = some f →
      (∀ op ∈ calls, isWriteCall op = true) →
      (runOps fs cap calls s).total = s.total + (calls.map callBytes).sum := by
  induction calls with
  | nil => intro s _ _; simp [runOps_nil]
  | cons op ops ih =>
    intro s hf hw
    obtain ⟨ht, hfile⟩ := step_writeCall fs cap f op s hf
      (hw op (List.mem_cons_self op ops))
    rw [runOps_cons, ih (step fs cap op s) (by rw [hfile]; exact hf)
      (fun o ho => hw o (List.mem_cons_of_mem _ ho)), ht]
    simp
    omega

lemma runOps_writes_no_flush (fs : Nat → Nat) (cap f : Nat)
    (ws : List (List Nat)) :
    ∀ (s : BFWState), s.file = some f →
      s.buf.length + (ws.map List.length).sum < cap →
      runOps fs cap (ws.map Op.write) s =
        { s with buf := s.buf ++ ws.flatten,
                 total := s.total + (ws.map List.length).sum } := by
  induction ws with
  | nil =>
    intro s _ _
    rcases s with ⟨g, buf, total, trace⟩
    simp [runOps_nil]
  | cons bs ws ih =>
    intro s hf h
    have hlt : s.buf.length + bs.length < cap := by simp at h; omega
    have hstep : step fs cap (Op.write bs) s =
        { s with buf := s.buf ++ bs, total := s.total + bs.length } := by
      simp only [step, write_eq_loop fs cap bs s f hf,
        writeLoop_no_flush fs cap bs 0 s hlt]
    rw [List.map_cons, runOps_cons, hstep,
      ih { s with buf := s.buf ++ bs, total := s.total + bs.length } hf
        (by simp at h ⊢; omega)]
    simp [List.append_assoc]
    omega

lemma step_buf_lt (fs : Nat → Nat) (cap : Nat) (op : Op) (s : BFWState)
    (hcap : 0 < cap) (h : s.buf.length < cap) :
    (step fs cap op s).buf.length < cap := by
  match op with
  | Op.setFile g => simpa [step, setFile] using hcap
  | Op.clear => simpa [step, clear] using hcap
  | Op.reset => simpa [step, resetBytesWrittenTotal] using h
  | Op.flush =>
    rcases s with ⟨g, buf, total, trace⟩
    cases g
    · exact h
    · simp only [step, flush]
      split
      · simpa using hcap
      · exact h
  | Op.write bs =>
    rcases s with ⟨g, buf, total, trace⟩
    cases g with
    | none => exact h
    | some f => exact writeLoop_buf_lt fs cap f bs 0 _ rfl hcap h
  | Op.writeStr str =>
    match str with
    | none => exact h
    | some content =>
      rcases s with ⟨g, buf, total, trace⟩
      cases g with
      | none => exact h
      | some f => exact writeLoop_buf_lt fs cap f content 0 _ rfl hcap h

lemma runOps_buf_lt (fs : Nat → Nat) (cap : Nat) (ops : List Op) :
    ∀ (s : BFWState), 0 < cap → s.buf.length < cap →
      (runOps fs cap ops s).buf.length < cap := by
  induction ops with
  | nil => intro s _ h; exact h
  | cons op ops ih =>
    intro s hcap h
    rw [runOps_cons]
    exact ih _ hcap (step_buf_lt fs cap op s hcap h)

/-! ### Claim theorems -/

/-- C3: `flush()` with no handle attached returns `WriteNoFile`
(`NoFileAttached`) and issues no underlying write (the state, in particular
the trace of underlying writes, is unchanged); with a handle attached and an
empty buffer (`cursor == 0`) it returns the neutral success code 0 and
issues no underlying write; otherwise it issues exactly one underlying write
of the `cursor` buffered bytes, resets the cursor to 0 regardless of the
outcome the oracle reports for that write, and returns the underlying
write's result code verbatim. -/
theorem flush_contract (fs : Nat → Nat) (s : BFWState) :
    (s.file = none → flush fs s = (WriteNoFile, s)) ∧
    (s.file ≠ none → s.buf = [] → flush fs s = (0, s)) ∧
    (s.file ≠ none → s.buf ≠ [] →
      (flush fs s).1 = fs s.trace.length ∧
      (flush fs s).2 = { s with buf := [], trace := s.trace ++ [s.buf] }) := by
  rcases s with ⟨g, buf, total, trace⟩
  cases g with
  | none => exact ⟨fun _ => rfl, fun h => absurd rfl h, fun h => absurd rfl h⟩
  | some f =>
    refine ⟨fun h => by simp at h, fun _ hb => ?_, fun _ hb => ?_⟩
    · subst hb; rfl
    · have hpos : 0 < buf.length := List.length_pos.mpr hb
      simp [flush, hpos]

/-- C3 witness: the three branches of `flush_contract` at concrete states. -/
theorem flush_contract_witness :
    flush fsZero ⟨none, [7], 3, []⟩ = (WriteNoFile, ⟨none, [7], 3, []⟩) ∧
    flush fsZero ⟨some 1, [], 3, []⟩ = (0, ⟨some 1, [], 3, []⟩) ∧
    (flush fsZero ⟨some 1, [7, 8], 3, [[2]]⟩).1 = fsZero 1 ∧
    (flush fsZero ⟨some 1, [7, 8], 3, [[2]]⟩).2 = ⟨some 1, [], 3, [[2], [7, 8]]⟩ :=
  ⟨(flush_contract fsZero ⟨none, [7], 3, []⟩).1 rfl,
   (flush_contract fsZero ⟨some 1, [], 3, []⟩).2.1 (by simp) rfl,
   ((flush_contract fsZero ⟨some 1, [7, 8], 3, [[2]]⟩).2.2 (by simp) (by simp)).1,
   ((flush_contract fsZero ⟨some 1, [7, 8], 3, [[2]]⟩).2.2 (by simp) (by simp)).2⟩

/-- C5: an underlying-write failure reported during an automatic flush in the
middle of a `write` call does not abort the call: the resulting state is the
same for every FS oracle (in particular for `fsFail`, which reports the
error sentinel on every underlying write), every supplied byte is counted in
`bytesWrittenTotal`, and every supplied byte ends up, in order, either in
the flushed trace or still in the buffer. -/
theorem write_not_aborted_by_flush_failure (fs fs' : Nat → Nat) (cap : Nat)
    (bs : List Nat) (s : BFWState) (f : Nat) (hf : s.file = some f) :
    (write fs cap bs s).2.total = s.total + bs.length ∧
    (write fs cap bs s).2.trace.flatten ++ (write fs cap bs s).2.buf =
      s.trace.flatten ++ s.buf ++ bs ∧
    (write fs cap bs s).2 = (write fs' cap bs s).2 := by
  rw [write_eq_loop fs cap bs s f hf, write_eq_loop fs' cap bs s f hf]
  exact ⟨writeLoop_total fs cap bs 0 s, writeLoop_conserve fs cap bs 0 s,
    writeLoop_snd_indep fs fs' cap bs 0 0 s⟩

/-- C5 witness: capacity 2, three bytes, an always-failing oracle: the
automatic flush of `[1, 2]` fails, yet byte 3 is still buffered and all
three bytes are counted, exactly as with an always-succeeding oracle. -/
theorem write_not_aborted_by_flush_failure_witness :
    (write fsFail 2 [1, 2, 3] ⟨some 1, [], 0, []⟩).2.total = 0 + 3 ∧
    (write fsFail 2 [1, 2, 3] ⟨some 1, [], 0, []⟩).2.trace.flatten ++
        (write fsFail 2 [1, 2, 3] ⟨some 1, [], 0, []⟩).2.buf =
      [1, 2, 3] ∧
    (write fsFail 2 [1, 2, 3] ⟨some 1, [], 0, []⟩).2 =
      (write fsZero 2 [1, 2, 3] ⟨some 1, [], 0, []⟩).2 :=
  write_not_aborted_by_flush_failure fsFail fsZero 2 [1, 2, 3]
    ⟨some 1, [], 0, []⟩ 1 rfl

/-- C6 counterexample: `writeStr` invoked with a NULL string while no handle
is attached returns 0, not `WriteNoFile` — its NULL check precedes the
attachment check — refuting the claim that every write operation called with
no handle attached returns `NoFileAttached`. -/
theorem writeStr_null_nofile_returns_zero :
    (writeStr fsZero BufferSize none initState).1 = 0 ∧
    (0 : Nat) ≠ WriteNoFile :=
  ⟨rfl, by decide⟩

/-- C6 (amended): `write` (any byte sequence) and `writeStr` with a non-NULL
string, called with no handle attached, return `WriteNoFile`, buffer none of
the supplied bytes and leave the state — in particular `bytesWrittenTotal`
and the cursor — unchanged; `writeStr` with a NULL string instead returns the
neutral success code 0 and likewise changes nothing, regardless of
attachment. -/
theorem write_nofile_contract (fs : Nat → Nat) (cap : Nat)
    (bs content : List Nat) (s : BFWState) (hf : s.file = none) :
    write fs cap bs s = (WriteNoFile, s) ∧
    writeStr fs cap (some content) s = (WriteNoFile, s) ∧
    ∀ t : BFWState, writeStr fs cap none t = (0, t) := by
  refine ⟨write_nofile fs cap bs s hf, ?_, fun t => rfl⟩
  simp only [writeStr]
  exact write_nofile fs cap content s hf

/-- C6 witness: the amended contract at the freshly constructed writer. -/
theorem write_nofile_contract_witness :
    write fsZero BufferSize [1, 2] initState = (WriteNoFile, initState) ∧
    writeStr fsZero BufferSize (some [3]) initState = (WriteNoFile, initState) ∧
    ∀ t : BFWState, writeStr fsZero BufferSize none t = (0, t) :=
  write_nofile_contract fsZero BufferSize [1, 2] [3] initState rfl

/-- C8: the `writeStr` half of the claim does hold on the code: a NULL string
argument is a no-op returning 0 (success), appending nothing and leaving
`bytesWrittenTotal` unchanged.  The `logPrintf` half is the code bug: a NULL
`fmt` is handed straight to `vsnprintf` with no check (contradicting
the comment on BufferedFileWriter.cpp:125), and the function returns no
value at all. -/
theorem writeStr_null_noop :
    writeStr fsZero BufferSize none ⟨some 1, [4], 7, [[2]]⟩ =
      (0, ⟨some 1, [4], 7, [[2]]⟩) := rfl

/-- C4: starting from an empty buffer with a handle attached, a single
`write` of `cap + 1` bytes (for any capacity of at least 2 — the code's 4096
and the spec scenario's 4 both qualify) triggers exactly one automatic flush
sending the first `cap` bytes, leaves exactly the last byte buffered
(`bufferCount = 1`), and a subsequent explicit `flush()` sends exactly that
remaining byte. -/
theorem write_capacity_plus_one (fs : Nat → Nat) (cap f t : Nat)
    (tr : List (List Nat)) (bs : List Nat) (hcap : 1 < cap)
    (hlen : bs.length = cap + 1) :
    (write fs cap bs ⟨some f, [], t, tr⟩).2.trace = tr ++ [bs.take cap] ∧
    bufferCount (write fs cap bs ⟨some f, [], t, tr⟩).2 = 1 ∧
    (write fs cap bs ⟨some f, [], t, tr⟩).2.buf = bs.drop cap ∧
    (flush fs (write fs cap bs ⟨some f, [], t, tr⟩).2).2.trace =
      tr ++ [bs.take cap] ++ [bs.drop cap] := by
  have htake : (bs.take cap).length = cap := by
    rw [List.length_take]; omega
  have hdrop : (bs.drop cap).length = 1 := by
    rw [List.length_drop]; omega
  have h1 := writeLoop_fill fs cap f (bs.take cap) 0 ⟨some f, [], t, tr⟩ rfl
    (by intro hnil; rw [hnil] at htake; simp at htake; omega)
    (by simpa using htake)
  have hsplit : writeLoop fs cap bs 0 ⟨some f, [], t, tr⟩ =
      writeLoop fs cap (bs.take cap ++ bs.drop cap) 0 ⟨some f, [], t, tr⟩ := by
    rw [List.take_append_drop]
  have key : (write fs cap bs ⟨some f, [], t, tr⟩).2 =
      ⟨some f, bs.drop cap, t + (bs.take cap).length + (bs.drop cap).length,
       tr ++ [bs.take cap]⟩ := by
    rw [write_eq_loop fs cap bs _ f rfl, hsplit, writeLoop_append, h1]
    rw [writeLoop_no_flush fs cap (bs.drop cap) _ _ (by simp [hdrop]; omega)]
    simp
  refine ⟨by rw [key], by simp [bufferCount, key, hdrop], by rw [key], ?_⟩
  rw [key]
  have hpos : 0 < (bs.drop cap).length := by omega
  rw [flush_attached_write fs f _ rfl hpos]

/-- C4 witness: the spec's scenario — capacity 4, `write("ABCDE", 5)` flushes
"ABCD" automatically, leaves "E" buffered, and `flush()` then sends "E". -/
theorem write_capacity_plus_one_witness :
    (write fsZero 4 [65, 66, 67, 68, 69] ⟨some 1, [], 0, []⟩).2.trace =
        [[65, 66, 67, 68]] ∧
    bufferCount (write fsZero 4 [65, 66, 67, 68, 69] ⟨some 1, [], 0, []⟩).2 = 1 ∧
    (write fsZero 4 [65, 66, 67, 68, 69] ⟨some 1, [], 0, []⟩).2.buf = [69] ∧
    (flush fsZero
        (write fsZero 4 [65, 66, 67, 68, 69] ⟨some 1, [], 0, []⟩).2).2.trace =
      [[65, 66, 67, 68], [69]] :=
  write_capacity_plus_one fsZero 4 1 0 [] [65, 66, 67, 68, 69]
    (by decide) (by decide)

/-- C1 counterexample: with the code's capacity `BufferSize` (4096), a single
`write` of exactly 4096 bytes issued with a handle attached to an empty
buffer — a sequence of writes of total length at most the capacity — DOES
trigger an automatic flush during the call (`writePtr >= writeEndPtr` fires
when the cursor reaches capacity): the underlying-write trace already
contains the whole block when `write` returns, and the subsequent explicit
`flush()` then issues no underlying write at all, instead of the single
underlying write the claim predicts at that point. -/
theorem write_exact_capacity_autoflush :
    (write fsZero BufferSize (List.replicate BufferSize 65)
        ⟨some 1, [], 0, []⟩).2.trace = [List.replicate BufferSize 65] ∧
    (flush fsZero (write fsZero BufferSize (List.replicate BufferSize 65)
        ⟨some 1, [], 0, []⟩).2).2.trace = [List.replicate BufferSize 65] := by
  have h1 := writeLoop_fill fsZero BufferSize 1 (List.replicate BufferSize 65) 0
    ⟨some 1, [], 0, []⟩ rfl
    (fun hnil => by
      have hlenr : (List.replicate BufferSize (65 : Nat)).length = 0 := by
        rw [hnil]; rfl
      rw [List.length_replicate] at hlenr
      exact absurd hlenr (by decide))
    (by rw [List.length_replicate]; rfl)
  have h2 : (write fsZero BufferSize (List.replicate BufferSize 65)
      ⟨some 1, [], 0, []⟩).2 =
      ⟨some 1, [], 0 + (List.replicate BufferSize 65).length,
       [] ++ [[] ++ List.replicate BufferSize 65]⟩ := by
    rw [write_eq_loop _ _ _ _ 1 rfl, h1]
  refine ⟨by rw [h2]; simp, ?_⟩
  rw [flush_emptybuf fsZero _ (by rw [h2]), h2]
  simp

/-- C1 (amended): for every sequence of `write` calls issued with a handle
attached to an empty buffer whose total length is STRICTLY LESS than the
capacity `BufferSize` (4096), no automatic flush occurs during those calls
(the underlying-write trace is unchanged), and a subsequent explicit
`flush()` issues exactly one underlying write whose content is exactly the
concatenation of all written bytes, in order — and no underlying write at
all in the degenerate case that no byte was written.  A write that fills the
buffer exactly to capacity instead triggers the automatic flush the moment
the cursor reaches capacity. -/
theorem writes_under_capacity_one_flush (fs : Nat → Nat) (f t : Nat)
    (tr : List (List Nat)) (ws : List (List Nat))
    (h : (ws.map List.length).sum < BufferSize) :
    (runOps fs BufferSize (ws.map Op.write) ⟨some f, [], t, tr⟩).trace = tr ∧
    (ws.flatten ≠ [] →
      (flush fs (runOps fs BufferSize (ws.map Op.write)
          ⟨some f, [], t, tr⟩)).2.trace = tr ++ [ws.flatten]) ∧
    (ws.flatten = [] →
      (flush fs (runOps fs BufferSize (ws.map Op.write)
          ⟨some f, [], t, tr⟩)).2.trace = tr) := by
  have hrun := runOps_writes_no_flush fs BufferSize f ws ⟨some f, [], t, tr⟩ rfl
    (by simpa using h)
  rw [hrun]
  refine ⟨rfl, fun hne => ?_, fun hnil => ?_⟩
  · have hpos : 0 < (([] : List Nat) ++ ws.flatten).length := by
      rw [List.nil_append]
      exact List.length_pos.mpr hne
    rw [flush_attached_write fs f _ rfl hpos]
    simp
  · rw [flush_emptybuf fs _ (by rw [List.nil_append, hnil])]

/-- C1 witness: two writes totalling 3 < 4096 bytes: no automatic flush, and
the explicit flush sends their concatenation in one underlying write. -/
theorem writes_under_capacity_one_flush_witness :
    (runOps fsZero BufferSize ([[65], [66, 67]].map Op.write)
        ⟨some 1, [], 0, []⟩).trace = ([] : List (List Nat)) ∧
    (([65, 66, 67] : List Nat) ≠ [] →
      (flush fsZero (runOps fsZero BufferSize ([[65], [66, 67]].map Op.write)
          ⟨some 1, [], 0, []⟩)).2.trace = [] ++ [[65, 66, 67]]) ∧
    (([65, 66, 67] : List Nat) = [] →
      (flush fsZero (runOps fsZero BufferSize ([[65], [66, 67]].map Op.write)
          ⟨some 1, [], 0, []⟩)).2.trace = []) :=
  writes_under_capacity_one_flush fsZero 1 0 [] [[65], [66, 67]] (by decide)

/-- C2: with a handle attached, after every sequence of `write`/`writeStr`
calls, `getBytesWrittenTotal` has grown by exactly the sum of the byte
lengths passed to those calls (`nChars`, resp. `strlen(string)`), however
many automatic flushes occurred and whatever the FS oracle reported for
them; `resetBytesWrittenTotal` sets the counter to 0; and `setFile`
(attach) leaves it unchanged. -/
theorem bytesWrittenTotal_accounting (fs : Nat → Nat) (cap f : Nat)
    (calls : List Op) (s : BFWState) (hf : s.file = some f)
    (hw : ∀ op ∈ calls, isWriteCall op = true) :
    getBytesWrittenTotal (runOps fs cap calls s) =
      getBytesWrittenTotal s + (calls.map callBytes).sum ∧
    (∀ t : BFWState, getBytesWrittenTotal (resetBytesWrittenTotal t) = 0) ∧
    (∀ (t : BFWState) (g : Option Nat),
      getBytesWrittenTotal (setFile g t) = getBytesWrittenTotal t) :=
  ⟨runOps_writeCalls_total fs cap f calls s hf hw, fun _ => rfl, fun _ _ => rfl⟩

/-- C2 witness: a `write` of 2 bytes, a `writeStr` of a 3-byte string and a
NULL `writeStr`, on a writer that had already counted 5 bytes: the counter
ends at 5 + 5, across the automatic flushes of capacity 4096 (none here). -/
theorem bytesWrittenTotal_accounting_witness :
    getBytesWrittenTotal (runOps fsZero BufferSize
        [Op.write [1, 2], Op.writeStr (some [3, 4, 5]), Op.writeStr none]
        ⟨some 1, [], 5, []⟩) = 5 + 5 ∧
    (∀ t : BFWState, getBytesWrittenTotal (resetBytesWrittenTotal t) = 0) ∧
    (∀ (t : BFWState) (g : Option Nat),
      getBytesWrittenTotal (setFile g t) = getBytesWrittenTotal t) :=
  bytesWrittenTotal_accounting fsZero BufferSize 1
    [Op.write [1, 2], Op.writeStr (some [3, 4, 5]), Op.writeStr none]
    ⟨some 1, [], 5, []⟩ rfl (by decide)

/-- C10: starting from a freshly constructed writer, after every sequence of
public operations (`setFile`, `clear`, `write`, `writeStr`, `flush`,
`resetBytesWrittenTotal`) under every FS oracle, `bufferCount` is strictly
less than `BufferSize`: the buffer is never left exactly full, because
reaching capacity inside `write` immediately flushes and resets the cursor
to 0. -/
theorem bufferCount_lt_BufferSize (fs : Nat → Nat) (ops : List Op) :
    bufferCount (runOps fs BufferSize ops initState) < BufferSize :=
  runOps_buf_lt fs BufferSize ops initState (by decide) (by decide)

/-- C9: evaluating `logPrintf` on the code at a rendered output of exactly
`LineBuffSize` (2048) bytes 65, a zeroed `lineBuff` and a fresh attached
writer: `vsnprintf` stores the first 2047 rendered bytes plus a NUL
terminator and returns the required length 2048, and `write(lineBuff, 2048)`
then appends those 2048 stored bytes — the truncated content PLUS the NUL
terminator — and counts 2048 in `bytesWrittenTotal`, not the 2047-byte
truncated rendered content the claim describes. -/
theorem logPrintf_truncation_appends_terminator :
    (logPrintf fsZero BufferSize (List.replicate 2048 65)
        (List.replicate 2049 0) ⟨some 1, [], 0, []⟩).buf =
      List.replicate 2047 65 ++ [0] ∧
    (logPrintf fsZero BufferSize (List.replicate 2048 65)
        (List.replicate 2049 0) ⟨some 1, [], 0, []⟩).total = 2048 ∧
    List.replicate 2047 (65 : Nat) ++ [0] ≠
      (List.replicate 2048 65).take (LineBuffSize - 1) := by
  have hstored : (List.replicate 2048 (65 : Nat)).take (LineBuffSize - 1) =
      List.replicate 2047 65 := by
    rw [List.take_replicate]
    norm_num [LineBuffSize]
  have hlen48 : (List.replicate 2047 (65 : Nat) ++ [0]).length = 2048 := by
    rw [List.length_append, List.length_replicate, List.length_singleton]
  have hline : lineBuffAfter (List.replicate 2048 65) (List.replicate 2049 0) =
      (List.replicate 2047 (65 : Nat) ++ [0]) ++ [0] := by
    rw [lineBuffAfter, hstored, hlen48, List.drop_replicate]
    norm_num [List.replicate_one]
  have hlenr : (List.replicate 2048 (65 : Nat)).length = 2048 :=
    List.length_replicate 2048 65
  have htake : ((List.replicate 2047 (65 : Nat) ++ [0]) ++ [0]).take 2048 =
      List.replicate 2047 65 ++ [0] := by
    rw [List.take_append_of_le_length (le_of_eq hlen48.symm)]
    exact List.take_of_length_le (le_of_eq hlen48)
  have hpassed : (lineBuffAfter (List.replicate 2048 65)
      (List.replicate 2049 0)).take (List.replicate 2048 (65 : Nat)).length =
      List.replicate 2047 65 ++ [0] := by
    rw [hlenr, hline, htake]
  have hkey : logPrintf fsZero BufferSize (List.replicate 2048 65)
      (List.replicate 2049 0) ⟨some 1, [], 0, []⟩ =
      ⟨some 1, [] ++ (List.replicate 2047 65 ++ [0]),
       0 + (List.replicate 2047 65 ++ [0]).length, []⟩ := by
    rw [logPrintf, hpassed, write_eq_loop _ _ _ _ 1 rfl,
      writeLoop_no_flush fsZero BufferSize (List.replicate 2047 65 ++ [0]) 0
        ⟨some 1, [], 0, []⟩ (by rw [List.length_nil, hlen48]; decide)]
  have hkey2 : logPrintf fsZero BufferSize (List.replicate 2048 65)
      (List.replicate 2049 0) ⟨some 1, [], 0, []⟩ =
      ⟨some 1, List.replicate 2047 65 ++ [0], 2048, []⟩ := by
    rw [hkey, List.nil_append, Nat.zero_add, hlen48]
  refine ⟨by rw [hkey2], by rw [hkey2], ?_⟩
  · rw [hstored]
    intro hcontra
    have hlens := congrArg List.length hcontra
    rw [hlen48, List.length_replicate] at hlens
    exact absurd hlens (by decide)

end BufferedFileWriter
